import Mathlib

/-!
Shallow embedding of the EchoText streaming voice-activity segmentation
engine (`src/backend/app/services/vad_service.py`).

Bytes are modelled as `List ℕ` (one entry per byte), int16 samples as `ℤ`,
and the float values of the source as exact rationals (`ℚ`).  The source
compares floats only against the fixed thresholds 0.01 (RMS gate), 0.85,
0.50 (probability bands), 0.90, 0.25 (window ratios) and `int(0.6 * n)`;
at every window fill the code can reach (`n ≤ 15`) the double results are
far enough from those thresholds (or land exactly on a representable value)
that the exact-rational comparison agrees with the IEEE comparison of the
source.  Each such spot is noted at its definition.  Rational constants are
written with `mkRat` so every definition evaluates by kernel reduction.

The Silero model call is an abstract scoring capability
`Scorer : List ℚ → Option ℚ` over the normalized samples; `none` models the
call raising an exception.  The source has no handler around the call, so an
exception aborts the per-chunk frame loop and propagates to the caller;
results carry an `errored` flag recording exactly that.
-/

namespace EchoText

/-! ### Audio constants (vad_service.py lines 16-50) -/

def SAMPLE_RATE : ℕ := 16000

def FRAME_DURATION_MS : ℕ := 32

/-- Source: `FRAME_SAMPLES = int(SAMPLE_RATE * FRAME_DURATION_MS / 1000)` = 512. -/
def FRAME_SAMPLES : ℕ := SAMPLE_RATE * FRAME_DURATION_MS / 1000

/-- Source: `FRAME_BYTES = FRAME_SAMPLES * 2` = 1024 (int16). -/
def FRAME_BYTES : ℕ := FRAME_SAMPLES * 2

/-- Source: `RMS_NOISE_GATE = 0.01` (exactly 1/100). -/
def RMS_NOISE_GATE : ℚ := mkRat 1 100

/-- Source: `STRONG_SPEECH_PROB = 0.85` (exactly 17/20). -/
def STRONG_SPEECH_PROB : ℚ := mkRat 17 20

/-- Source: `WEAK_SPEECH_PROB = 0.50` (exactly 1/2). -/
def WEAK_SPEECH_PROB : ℚ := mkRat 1 2

def SPEECH_BUFFER_DURATION_MS : ℕ := 480

/-- Source: `SPEECH_BUFFER_FRAMES = 480 // 32` = 15. -/
def SPEECH_BUFFER_FRAMES : ℕ := SPEECH_BUFFER_DURATION_MS / FRAME_DURATION_MS

/-- Source: the speech-start trigger ratio 0.90 (exactly 9/10). -/
def SPEECH_TRIGGER_RATIO : ℚ := mkRat 9 10

/-- Source: the speech-end release ratio 0.25 (exactly 1/4). -/
def SPEECH_RELEASE_RATIO : ℚ := mkRat 1 4

/-- Source: `MIN_UTTERANCE_SAMPLES = int(SAMPLE_RATE * MIN_UTTERANCE_DURATION_S)` with
`MIN_UTTERANCE_DURATION_S = 1.2`: the double product `16000 * 1.2` is exactly
`19200.0`, so the truncation is exactly 19200. -/
def MIN_UTTERANCE_SAMPLES : ℕ := 19200

def PRE_SPEECH_MS : ℕ := 400

/-- Source: `PRE_SPEECH_FRAMES = 400 // 32` = 12. -/
def PRE_SPEECH_FRAMES : ℕ := PRE_SPEECH_MS / FRAME_DURATION_MS

def TRAILING_SILENCE_MS : ℕ := 700

/-- Source: `TRAILING_SILENCE_FRAMES = 700 // 32` = 21. -/
def TRAILING_SILENCE_FRAMES : ℕ := TRAILING_SILENCE_MS / FRAME_DURATION_MS

/-! ### PCM decoding and the energy gate (lines 165-171) -/

/-- Source: `np.frombuffer(frame_bytes, dtype=np.int16)`: little-endian byte pairs to
signed 16-bit samples (a trailing odd byte yields no sample; frames always
have even length). -/
def bytesToInt16 : List ℕ → List ℤ
  | lo :: hi :: rest =>
      (if lo + 256 * hi < 32768 then ((lo + 256 * hi : ℕ) : ℤ)
       else ((lo + 256 * hi : ℕ) : ℤ) - 65536) :: bytesToInt16 rest
  | _ => []

/-- Source: `audio_f32 = audio_np / 32768.0`: normalized samples in [-1, 1]. -/
def normalize (samples : List ℤ) : List ℚ :=
  samples.map (fun s => mkRat s 32768)

def sumSquares (samples : List ℤ) : ℤ :=
  (samples.map (fun s => s * s)).sum

/-- Line 170-171, `rms = sqrt(np.mean(audio_f32 ** 2)); rms < RMS_NOISE_GATE`,
with the squares cleared of denominators: for the 512 samples sᵢ,
`rms < 1/100 ↔ mean((sᵢ/32768)²) < 1/100² ↔ 100² · Σ sᵢ² < 32768² · n`.
(For an empty sample list numpy's mean is NaN and `NaN < 0.01` is false;
here `0 < 0` is false as well.) -/
def rmsBelowGate (samples : List ℤ) : Prop :=
  10000 * sumSquares samples < 1073741824 * (samples.length : ℤ)

instance (samples : List ℤ) : Decidable (rmsBelowGate samples) := by
  unfold rmsBelowGate; infer_instance

/-- The injected probability-scoring capability (the Silero model call of
lines 174-178), consuming the normalized samples. `none` models the call
raising an exception; the source has no handler for it. -/
def Scorer : Type := List ℚ → Option ℚ

/-- Lines 169-178: the per-frame speech probability. Below the gate the model
is never invoked and the probability is forced to `0.0`; otherwise the model
is consulted on the normalized samples and may raise (`none`). -/
def frameSpeechProb (model : Scorer) (samples : List ℤ) : Option ℚ :=
  if rmsBelowGate samples then some 0 else model (normalize samples)

/-- Lines 180-186: `p > STRONG_SPEECH_PROB → True`, `p < WEAK_SPEECH_PROB →
False`, ambiguous band `→ False`. -/
def isSpeechDecision (speech_prob : ℚ) : Bool :=
  if STRONG_SPEECH_PROB < speech_prob then true
  else if speech_prob < WEAK_SPEECH_PROB then false
  else false

/-! ### Bounded deques -/

/-- Python bounded deque append with the given maxlen: newest at the tail,
oldest evicted from the front when full. -/
def dequeAppend {α : Type} (maxlen : ℕ) (xs : List α) (x : α) : List α :=
  if maxlen ≤ xs.length then (xs ++ [x]).drop (xs.length + 1 - maxlen)
  else xs ++ [x]

/-- Iterated deque append: `k` consecutive `dequeAppend`s of the same element. -/
def dequePushes {α : Type} (maxlen : ℕ) (x : α) : ℕ → List α → List α
  | 0, xs => xs
  | k + 1, xs => dequePushes maxlen x k (dequeAppend maxlen xs x)

/-! ### Per-connection state (VadState, lines 55-68) -/

/-- Source class `VadState`. `speech_start_time` (wall clock) and `current_utterance_id`
(derived from the wall clock) are modelled as `Option Unit`: `none` until the
Idle→Speaking transition sets them, faithful to their set/cleared lifecycle. -/
structure VadState where
  speech_buffer : List ℕ
  pre_speech_buffer : List (List ℕ)
  vad_decision_buffer : List Bool
  trailing_silence_buffer : List (List ℕ)
  in_speech : Bool
  speech_start_time : Option Unit
  current_utterance_id : Option Unit
  partial_frame : List ℕ
deriving Repr, DecidableEq

/-- Source method `VadState.reset` (lines 59-68); also the state of a fresh connection,
since `__init__` just calls `reset`. -/
def VadState.reset : VadState :=
  ⟨[], [], [], [], false, none, none, []⟩

/-- Result of processing one frame: the mutated state, the utterances handed
to the sink callback, and whether the model call raised. In the source every
mutation of `_process_frame` sits after the model call, so on an exception
the state is returned untouched and the exception propagates. -/
structure FrameResult where
  state : VadState
  outputs : List (List ℕ)
  errored : Bool
deriving Repr, DecidableEq

/-! ### `_process_frame` (lines 154-242) -/

def processFrame (model : Scorer) (state : VadState) (frame_bytes : List ℕ) :
    FrameResult :=
  if frame_bytes.length ≠ FRAME_BYTES then ⟨state, [], false⟩
  else
    let audio_np := bytesToInt16 frame_bytes
    match frameSpeechProb model audio_np with
    | none => ⟨state, [], true⟩
    | some speech_prob =>
      let is_speech := isSpeechDecision speech_prob
      let vad_decision_buffer :=
        dequeAppend SPEECH_BUFFER_FRAMES state.vad_decision_buffer is_speech
      let speech_frames := vad_decision_buffer.count true
      let total_frames := vad_decision_buffer.length
      -- `speech_ratio = speech_frames / total_frames if total_frames else 0.0`;
      -- `mkRat` is exact rational division. For the fills the code reaches
      -- (n ≤ 15) the double ratio compares to 0.90 / 0.25 exactly as the
      -- rational does.
      let speech_ratio : ℚ :=
        if total_frames = 0 then 0 else mkRat (speech_frames : ℤ) total_frames
      let pre_speech_buffer :=
        dequeAppend PRE_SPEECH_FRAMES state.pre_speech_buffer frame_bytes
      let state := { state with
        vad_decision_buffer := vad_decision_buffer
        pre_speech_buffer := pre_speech_buffer }
      if state.in_speech = false then
        -- `speech_ratio >= SPEECH_TRIGGER_RATIO and speech_frames >= int(0.6 * total_frames)`.
        -- For every fill n ≤ 15 the double `int(0.6 * n)` equals `⌊3n/5⌋`
        -- (at n = 5, 10, 15 the product rounds up to the exact integer).
        if SPEECH_TRIGGER_RATIO ≤ speech_ratio ∧ 3 * total_frames / 5 ≤ speech_frames then
          ⟨{ state with
              in_speech := true
              speech_start_time := some ()
              current_utterance_id := some ()
              speech_buffer := state.speech_buffer ++ pre_speech_buffer.flatten ++ frame_bytes
              trailing_silence_buffer := [] }, [], false⟩
        else ⟨state, [], false⟩
      else
        let speech_buffer := state.speech_buffer ++ frame_bytes
        if speech_ratio < SPEECH_RELEASE_RATIO then
          let trailing_silence_buffer :=
            dequeAppend TRAILING_SILENCE_FRAMES state.trailing_silence_buffer frame_bytes
          if trailing_silence_buffer.length = TRAILING_SILENCE_FRAMES then
            ⟨VadState.reset,
             if MIN_UTTERANCE_SAMPLES * 2 ≤ speech_buffer.length then [speech_buffer] else [],
             false⟩
          else
            ⟨{ state with
                speech_buffer := speech_buffer
                trailing_silence_buffer := trailing_silence_buffer }, [], false⟩
        else
          ⟨{ state with
              speech_buffer := speech_buffer
              trailing_silence_buffer := [] }, [], false⟩

/-- Result of one `process_audio_chunk` call (or a sequence of them):
`frames` is the ordered trace of complete `FRAME_BYTES`-sized frames handed
to `_process_frame`, `outputs` the utterances handed to the sink. -/
structure ChunkResult where
  state : VadState
  frames : List (List ℕ)
  outputs : List (List ℕ)
  errored : Bool
deriving Repr, DecidableEq

/-- The frame loop of `process_audio_chunk` (lines 140-152), with a
structural fuel argument (one unit per loop entry; a frame consumes
`FRAME_BYTES ≥ 1` bytes, so `fuel = audio_bytes.length` always suffices,
and the fuel-exhausted case can only be reached with an empty byte list,
where it coincides with the store-the-tail branch). An exception from the
model aborts the loop exactly as in the source, where it propagates out of
the `while`: the unconsumed tail is dropped. -/
def processFramesGo (model : Scorer) : ℕ → VadState → List ℕ → ChunkResult
  | 0, state, audio_bytes =>
      ⟨{ state with partial_frame := state.partial_frame ++ audio_bytes }, [], [], false⟩
  | fuel + 1, state, audio_bytes =>
      if FRAME_BYTES ≤ audio_bytes.length then
        let frame_bytes := audio_bytes.take FRAME_BYTES
        let r := processFrame model state frame_bytes
        if r.errored then ⟨r.state, [frame_bytes], r.outputs, true⟩
        else
          let rest := processFramesGo model fuel r.state (audio_bytes.drop FRAME_BYTES)
          ⟨rest.state, frame_bytes :: rest.frames, r.outputs ++ rest.outputs, rest.errored⟩
      else ⟨{ state with partial_frame := state.partial_frame ++ audio_bytes }, [], [], false⟩

def processFrames (model : Scorer) (state : VadState) (audio_bytes : List ℕ) :
    ChunkResult :=
  processFramesGo model audio_bytes.length state audio_bytes

/-- Source method `process_audio_chunk` (lines 113-152). `vad_model_loaded = false` is
passthrough mode: the raw chunk goes straight to the sink and the connection
state is never touched (the source does not even call `get_state`). The sink
callback is modelled as always present. -/
def process_audio_chunk (vad_model_loaded : Bool) (model : Scorer)
    (state : VadState) (audio_bytes : List ℕ) : ChunkResult :=
  if vad_model_loaded = false then ⟨state, [], [audio_bytes], false⟩
  else
    processFrames model { state with partial_frame := [] }
      (state.partial_frame ++ audio_bytes)

/-- Feeding a sequence of chunks through successive `process_audio_chunk`
calls on one connection. The caller's receive loop keeps calling even after
an exception surfaced, so later chunks are still processed; `errored`
records whether any call raised. -/
def processChunks (vad_model_loaded : Bool) (model : Scorer)
    (state : VadState) : List (List ℕ) → ChunkResult
  | [] => ⟨state, [], [], false⟩
  | c :: cs =>
    let r := process_audio_chunk vad_model_loaded model state c
    let rest := processChunks vad_model_loaded model r.state cs
    ⟨rest.state, r.frames ++ rest.frames, r.outputs ++ rest.outputs,
     r.errored || rest.errored⟩

/-! ### Concrete audio material for witnesses -/

/-- PCM material: `n` repetitions of the little-endian byte pair `(lo, hi)`, a constant
int16 PCM signal of `n` samples. -/
def pcmConst (lo hi : ℕ) : ℕ → List ℕ
  | 0 => []
  | n + 1 => lo :: hi :: pcmConst lo hi n

/-- A full frame of samples 32767 (bytes `FF 7F`): far above the noise gate. -/
def speechFrame : List ℕ := pcmConst 255 127 512

/-- A full frame of samples 16384 (bytes `00 40`): above the noise gate, but
scored low by `scenarioModel`. -/
def lowProbFrame : List ℕ := pcmConst 0 64 512

/-- A full frame of zero samples: below the noise gate. -/
def zeroFrame : List ℕ := pcmConst 0 0 512

/-- A concrete scorer: probability 0.95 for the constant-32767 signal,
probability 0.05 for everything else. -/
def scenarioModel : Scorer := fun xs =>
  if xs.headD 0 = mkRat 32767 32768 then some (mkRat 19 20) else some (mkRat 1 20)

/-- A scorer whose model call always raises. -/
def raisingModel : Scorer := fun _ => none

/-! ### Arithmetic characterizations of the threshold comparisons -/

lemma mkRat_cast_eq_div (t n : ℕ) : mkRat (t : ℤ) n = (t : ℚ) / (n : ℚ) := by
  rw [Rat.mkRat_eq_divInt, Rat.divInt_eq_div]
  push_cast
  rfl

/-- The release comparison of the window ratio as an integer comparison. -/
lemma ratio_lt_release_iff (t n : ℕ) (hn : 0 < n) :
    mkRat (t : ℤ) n < SPEECH_RELEASE_RATIO ↔ 4 * t < n := by
  have h4 : SPEECH_RELEASE_RATIO = (1 : ℚ) / 4 := by
    rw [ SPEECH_RELEASE_RATIO]
    norm_num [Rat.mkRat_eq_divInt, Rat.divInt_eq_div]
  rw [mkRat_cast_eq_div, h4,
    div_lt_div_iff₀ (by exact_mod_cast hn) (by norm_num)]
  constructor
  · intro h
    have : (4 * t : ℚ) < n := by linarith
    exact_mod_cast this
  · intro h
    have : (4 * t : ℚ) < n := by exact_mod_cast h
    linarith

/-- The trigger comparison of the window ratio as an integer comparison. -/
lemma trigger_le_ratio_iff (t n : ℕ) (hn : 0 < n) :
    SPEECH_TRIGGER_RATIO ≤ mkRat (t : ℤ) n ↔ 9 * n ≤ 10 * t := by
  have h9 : SPEECH_TRIGGER_RATIO = (9 : ℚ) / 10 := by
    rw [ SPEECH_TRIGGER_RATIO]
    norm_num [Rat.mkRat_eq_divInt, Rat.divInt_eq_div]
  rw [mkRat_cast_eq_div, h9,
    div_le_div_iff₀ (by norm_num) (by exact_mod_cast hn)]
  constructor
  · intro h
    have : (9 * n : ℚ) ≤ 10 * t := by linarith
    exact_mod_cast this
  · intro h
    have : (9 * n : ℚ) ≤ 10 * t := by exact_mod_cast h
    linarith

/-! ### Deque lemmas -/

lemma dequeAppend_of_lt {α : Type} (m : ℕ) (xs : List α) (x : α)
    (h : xs.length < m) : dequeAppend m xs x = xs ++ [x] := by
  unfold dequeAppend
  rw [if_neg (by omega)]

lemma dequeAppend_of_full {α : Type} (m : ℕ) (xs : List α) (x : α)
    (hm : 0 < m) (h : xs.length = m) :
    dequeAppend m xs x = xs.drop 1 ++ [x] := by
  unfold dequeAppend
  rw [if_pos (by omega), show xs.length + 1 - m = 1 by omega,
    List.drop_append_of_le_length (by omega)]

lemma dequeAppend_length_pos {α : Type} (m : ℕ) (xs : List α) (x : α)
    (hm : 0 < m) : 0 < (dequeAppend m xs x).length := by
  unfold dequeAppend
  split
  · simp
    omega
  · simp

lemma dequeAppend_snoc {α : Type} (m : ℕ) (xs : List α) (x : α)
    (hm : 0 < m) : ∃ ys, dequeAppend m xs x = ys ++ [x] := by
  unfold dequeAppend
  split
  · exact ⟨xs.drop (xs.length + 1 - m),
      by rw [List.drop_append_of_le_length (by omega)]⟩
  · exact ⟨xs, rfl⟩

lemma dequeAppend_count_true_zero (m : ℕ) (xs : List Bool)
    (h : xs.count true = 0) : (dequeAppend m xs false).count true = 0 := by
  have hbase : (xs ++ [false]).count true = 0 := by
    simp [List.count_append, h]
  unfold dequeAppend
  split
  · have hsub := (List.drop_sublist (xs.length + 1 - m) (xs ++ [false])).count_le true
    omega
  · exact hbase

/-! ### Unfolding API for the fuel-based frame loop -/

lemma processFramesGo_irrel (model : Scorer) :
    ∀ (n f₁ f₂ : ℕ) (s : VadState) (b : List ℕ), b.length = n →
      b.length ≤ f₁ → b.length ≤ f₂ →
      processFramesGo model f₁ s b = processFramesGo model f₂ s b := by
  intro n
  induction n using Nat.strong_induction_on with
  | _ n ih =>
    intro f₁ f₂ s b hn h₁ h₂
    match f₁, f₂ with
    | 0, 0 => rfl
    | 0, f₂ + 1 =>
      have hb : b = [] := List.length_eq_zero.mp (by omega)
      subst hb
      simp [processFramesGo, FRAME_BYTES, FRAME_SAMPLES, SAMPLE_RATE, FRAME_DURATION_MS]
    | f₁ + 1, 0 =>
      have hb : b = [] := List.length_eq_zero.mp (by omega)
      subst hb
      simp [processFramesGo, FRAME_BYTES, FRAME_SAMPLES, SAMPLE_RATE, FRAME_DURATION_MS]
    | f₁ + 1, f₂ + 1 =>
      simp only [processFramesGo]
      by_cases hfb : FRAME_BYTES ≤ b.length
      · rw [if_pos hfb, if_pos hfb]
        have hdrop : (b.drop FRAME_BYTES).length = b.length - FRAME_BYTES :=
          List.length_drop _ _
        have hFB : 0 < FRAME_BYTES := by decide
        rw [ih (b.length - FRAME_BYTES) (by omega) f₁ f₂ _ _ hdrop (by omega) (by omega)]
      · rw [if_neg hfb, if_neg hfb]

/-- Evaluation: `processFrames` on input shorter than a frame just stores the tail. -/
lemma processFrames_small (model : Scorer) (s : VadState) (b : List ℕ)
    (h : b.length < FRAME_BYTES) :
    processFrames model s b =
      ⟨{ s with partial_frame := s.partial_frame ++ b }, [], [], false⟩ := by
  unfold processFrames
  cases hb : b.length with
  | zero => simp [processFramesGo]
  | succ n =>
    simp only [processFramesGo]
    rw [if_neg (by omega)]

/-- Evaluation: `processFrames` on input holding at least one complete frame carves it
and recurses. -/
lemma processFrames_step (model : Scorer) (s : VadState) (b : List ℕ)
    (h : FRAME_BYTES ≤ b.length) :
    processFrames model s b =
      (let frame_bytes := b.take FRAME_BYTES
       let r := processFrame model s frame_bytes
       if r.errored then ⟨r.state, [frame_bytes], r.outputs, true⟩
       else
         let rest := processFrames model r.state (b.drop FRAME_BYTES)
         ⟨rest.state, frame_bytes :: rest.frames, r.outputs ++ rest.outputs,
          rest.errored⟩) := by
  unfold processFrames
  have hFB : 0 < FRAME_BYTES := by decide
  cases hb : b.length with
  | zero => omega
  | succ n =>
    simp only [processFramesGo]
    rw [if_pos (by omega)]
    have hdrop : (b.drop FRAME_BYTES).length = b.length - FRAME_BYTES :=
      List.length_drop _ _
    rw [processFramesGo_irrel model (b.drop FRAME_BYTES).length n
      (b.drop FRAME_BYTES).length _ _ rfl (by omega) (by omega)]

/-! ### Frame-level facts -/

/-- Fact: `_process_frame` never touches `partial_frame` while it is empty (the
reset at finalization rewrites it to empty again). -/
lemma processFrame_partial_nil (model : Scorer) (s : VadState) (f : List ℕ)
    (h : s.partial_frame = []) :
    (processFrame model s f).state.partial_frame = [] := by
  unfold processFrame
  split
  · exact h
  · dsimp only
    rcases hfp : frameSpeechProb model (bytesToInt16 f) with _ | p
    · exact h
    · dsimp only
      repeat' split
      all_goals simp [VadState.reset, h]

/-- With a total scorer (one whose call never raises) a frame never errors. -/
lemma processFrame_noerror (model : Scorer) (hm : ∀ xs, model xs ≠ none)
    (s : VadState) (f : List ℕ) : (processFrame model s f).errored = false := by
  unfold processFrame
  split
  · rfl
  · dsimp only
    rcases hfp : frameSpeechProb model (bytesToInt16 f) with _ | p
    · exfalso
      unfold frameSpeechProb at hfp
      split at hfp
      · exact Option.noConfusion hfp
      · exact hm _ hfp
    · repeat' split
      all_goals simp_all

/-! ### Chunk-level composition -/

lemma processChunks_append (loaded : Bool) (model : Scorer) (s : VadState)
    (xs ys : List (List ℕ)) :
    processChunks loaded model s (xs ++ ys) =
      (let r := processChunks loaded model s xs
       let rest := processChunks loaded model r.state ys
       ⟨rest.state, r.frames ++ rest.frames, r.outputs ++ rest.outputs,
        r.errored || rest.errored⟩) := by
  induction xs generalizing s with
  | nil => simp [processChunks]
  | cons c cs ih =>
    dsimp only [List.cons_append, processChunks]
    rw [ih]
    dsimp only
    simp [List.append_assoc, Bool.or_assoc]

/-- A `process_audio_chunk` call on exactly one complete frame (with no
pending remainder) is a single `_process_frame` call. -/
lemma process_audio_chunk_single (model : Scorer) (s : VadState) (f : List ℕ)
    (hp : s.partial_frame = []) (hf : f.length = FRAME_BYTES) :
    process_audio_chunk true model s f =
      ⟨(processFrame model s f).state, [f], (processFrame model s f).outputs,
       (processFrame model s f).errored⟩ := by
  unfold process_audio_chunk
  rw [if_neg (by simp)]
  have hs : ({ s with partial_frame := [] } : VadState) = s := by
    cases s
    simp_all
  rw [hp, hs, List.nil_append,
    processFrames_step model s f (by omega),
    show f.take FRAME_BYTES = f by rw [← hf, List.take_length],
    show f.drop FRAME_BYTES = [] by rw [← hf, List.drop_length]]
  rcases herr : (processFrame model s f).errored with _ | _
  · dsimp only
    rw [herr]
    rw [if_neg (by simp), processFrames_small model _ [] (by decide)]
    simp only [List.append_nil]
  · dsimp only
    rw [if_pos (by simp [herr])]

/-- Feeding one complete frame as its own chunk, in front of more chunks. -/
lemma processChunks_cons_frame (model : Scorer) (s : VadState) (f : List ℕ)
    (fs : List (List ℕ)) (hp : s.partial_frame = []) (hf : f.length = FRAME_BYTES) :
    processChunks true model s (f :: fs) =
      (let r := processFrame model s f
       let rest := processChunks true model r.state fs
       ⟨rest.state, f :: rest.frames, r.outputs ++ rest.outputs,
        r.errored || rest.errored⟩) := by
  simp only [processChunks, process_audio_chunk_single model s f hp hf,
    List.singleton_append]

/-! ### Concrete frame evaluations -/

lemma pcmConst_length (lo hi n : ℕ) : (pcmConst lo hi n).length = 2 * n := by
  induction n with
  | zero => rfl
  | succ k ih =>
    simp only [pcmConst, List.length_cons, ih]
    omega

lemma bytesToInt16_pcmConst (lo hi n : ℕ) :
    bytesToInt16 (pcmConst lo hi n) =
      List.replicate n
        (if lo + 256 * hi < 32768 then ((lo + 256 * hi : ℕ) : ℤ)
         else ((lo + 256 * hi : ℕ) : ℤ) - 65536) := by
  induction n with
  | zero => rfl
  | succ k ih => simp only [pcmConst, bytesToInt16, ih, List.replicate]

lemma sumSquares_replicate (n : ℕ) (v : ℤ) :
    sumSquares (List.replicate n v) = n * (v * v) := by
  unfold sumSquares
  rw [List.map_replicate, List.sum_replicate, nsmul_eq_mul]

lemma normalize_replicate (n : ℕ) (v : ℤ) :
    normalize (List.replicate n v) = List.replicate n (mkRat v 32768) := by
  simp [normalize, List.map_replicate]

lemma speechFrame_length : speechFrame.length = FRAME_BYTES := by
  rw [speechFrame, pcmConst_length]
  rfl

lemma lowProbFrame_length : lowProbFrame.length = FRAME_BYTES := by
  rw [lowProbFrame, pcmConst_length]
  rfl

lemma zeroFrame_length : zeroFrame.length = FRAME_BYTES := by
  rw [zeroFrame, pcmConst_length]
  rfl

lemma bytesToInt16_speechFrame :
    bytesToInt16 speechFrame = List.replicate 512 32767 := by
  rw [speechFrame, bytesToInt16_pcmConst]
  norm_num

lemma bytesToInt16_lowProbFrame :
    bytesToInt16 lowProbFrame = List.replicate 512 16384 := by
  rw [lowProbFrame, bytesToInt16_pcmConst]
  norm_num

lemma bytesToInt16_zeroFrame :
    bytesToInt16 zeroFrame = List.replicate 512 0 := by
  rw [zeroFrame, bytesToInt16_pcmConst]
  norm_num

lemma not_gate_speechFrame : ¬ rmsBelowGate (bytesToInt16 speechFrame) := by
  rw [bytesToInt16_speechFrame]
  unfold rmsBelowGate
  rw [sumSquares_replicate, List.length_replicate]
  decide

lemma not_gate_lowProbFrame : ¬ rmsBelowGate (bytesToInt16 lowProbFrame) := by
  rw [bytesToInt16_lowProbFrame]
  unfold rmsBelowGate
  rw [sumSquares_replicate, List.length_replicate]
  decide

lemma gate_zeroFrame : rmsBelowGate (bytesToInt16 zeroFrame) := by
  rw [bytesToInt16_zeroFrame]
  unfold rmsBelowGate
  rw [sumSquares_replicate, List.length_replicate]
  decide

lemma frameSpeechProb_speechFrame :
    frameSpeechProb scenarioModel (bytesToInt16 speechFrame) =
      some (mkRat 19 20) := by
  unfold frameSpeechProb
  rw [if_neg not_gate_speechFrame, bytesToInt16_speechFrame,
    normalize_replicate]
  unfold scenarioModel
  rw [if_pos]
  rw [show (512 : ℕ) = 511 + 1 from rfl, List.replicate_succ]
  rfl

lemma frameSpeechProb_lowProbFrame :
    frameSpeechProb scenarioModel (bytesToInt16 lowProbFrame) =
      some (mkRat 1 20) := by
  unfold frameSpeechProb
  rw [if_neg not_gate_lowProbFrame, bytesToInt16_lowProbFrame,
    normalize_replicate]
  unfold scenarioModel
  rw [if_neg]
  rw [show (512 : ℕ) = 511 + 1 from rfl, List.replicate_succ]
  decide

lemma frameSpeechProb_zeroFrame (model : Scorer) :
    frameSpeechProb model (bytesToInt16 zeroFrame) = some 0 := by
  unfold frameSpeechProb
  rw [if_pos gate_zeroFrame]



/-! ### Single-step characterizations of `_process_frame` -/

lemma stepIdleTrigger (model : Scorer) (s : VadState) (f : List ℕ) (p : ℚ)
    (hf : f.length = FRAME_BYTES)
    (hp : frameSpeechProb model (bytesToInt16 f) = some p)
    (hin : s.in_speech = false)
    (htrig : SPEECH_TRIGGER_RATIO ≤ mkRat
        (((dequeAppend SPEECH_BUFFER_FRAMES s.vad_decision_buffer
            (isSpeechDecision p)).count true : ℕ) : ℤ)
        (dequeAppend SPEECH_BUFFER_FRAMES s.vad_decision_buffer
            (isSpeechDecision p)).length ∧
      3 * (dequeAppend SPEECH_BUFFER_FRAMES s.vad_decision_buffer
            (isSpeechDecision p)).length / 5 ≤
        (dequeAppend SPEECH_BUFFER_FRAMES s.vad_decision_buffer
            (isSpeechDecision p)).count true) :
    processFrame model s f =
      ⟨{ s with
          vad_decision_buffer :=
            dequeAppend SPEECH_BUFFER_FRAMES s.vad_decision_buffer (isSpeechDecision p)
          pre_speech_buffer := dequeAppend PRE_SPEECH_FRAMES s.pre_speech_buffer f
          in_speech := true
          speech_start_time := some ()
          current_utterance_id := some ()
          speech_buffer := s.speech_buffer ++
            (dequeAppend PRE_SPEECH_FRAMES s.pre_speech_buffer f).flatten ++ f
          trailing_silence_buffer := [] }, [], false⟩ := by
  unfold processFrame
  rw [if_neg (by simp [hf])]
  dsimp only
  rw [hp]
  dsimp only
  have hn0 : ¬ ((dequeAppend SPEECH_BUFFER_FRAMES s.vad_decision_buffer
      (isSpeechDecision p)).length = 0) := by
    have := dequeAppend_length_pos SPEECH_BUFFER_FRAMES s.vad_decision_buffer
      (isSpeechDecision p) (by decide)
    omega
  rw [if_neg hn0, if_pos hin, if_pos htrig]

lemma stepSpeakingClear (model : Scorer) (s : VadState) (f : List ℕ) (p : ℚ)
    (hf : f.length = FRAME_BYTES)
    (hp : frameSpeechProb model (bytesToInt16 f) = some p)
    (hin : s.in_speech = true)
    (hratio : ¬ (mkRat
        (((dequeAppend SPEECH_BUFFER_FRAMES s.vad_decision_buffer
            (isSpeechDecision p)).count true : ℕ) : ℤ)
        (dequeAppend SPEECH_BUFFER_FRAMES s.vad_decision_buffer
            (isSpeechDecision p)).length < SPEECH_RELEASE_RATIO)) :
    processFrame model s f =
      ⟨{ s with
          vad_decision_buffer :=
            dequeAppend SPEECH_BUFFER_FRAMES s.vad_decision_buffer (isSpeechDecision p)
          pre_speech_buffer := dequeAppend PRE_SPEECH_FRAMES s.pre_speech_buffer f
          speech_buffer := s.speech_buffer ++ f
          trailing_silence_buffer := [] }, [], false⟩ := by
  unfold processFrame
  rw [if_neg (by simp [hf])]
  dsimp only
  rw [hp]
  dsimp only
  have hn0 : ¬ ((dequeAppend SPEECH_BUFFER_FRAMES s.vad_decision_buffer
      (isSpeechDecision p)).length = 0) := by
    have := dequeAppend_length_pos SPEECH_BUFFER_FRAMES s.vad_decision_buffer
      (isSpeechDecision p) (by decide)
    omega
  rw [if_neg hn0, if_neg (by simp [hin]), if_neg hratio]

lemma stepSpeakingCount (model : Scorer) (s : VadState) (f : List ℕ) (p : ℚ)
    (hf : f.length = FRAME_BYTES)
    (hp : frameSpeechProb model (bytesToInt16 f) = some p)
    (hin : s.in_speech = true)
    (hratio : mkRat
        (((dequeAppend SPEECH_BUFFER_FRAMES s.vad_decision_buffer
            (isSpeechDecision p)).count true : ℕ) : ℤ)
        (dequeAppend SPEECH_BUFFER_FRAMES s.vad_decision_buffer
            (isSpeechDecision p)).length < SPEECH_RELEASE_RATIO)
    (htr : ¬ ((dequeAppend TRAILING_SILENCE_FRAMES s.trailing_silence_buffer f).length
        = TRAILING_SILENCE_FRAMES)) :
    processFrame model s f =
      ⟨{ s with
          vad_decision_buffer :=
            dequeAppend SPEECH_BUFFER_FRAMES s.vad_decision_buffer (isSpeechDecision p)
          pre_speech_buffer := dequeAppend PRE_SPEECH_FRAMES s.pre_speech_buffer f
          speech_buffer := s.speech_buffer ++ f
          trailing_silence_buffer :=
            dequeAppend TRAILING_SILENCE_FRAMES s.trailing_silence_buffer f }, [], false⟩ := by
  unfold processFrame
  rw [if_neg (by simp [hf])]
  dsimp only
  rw [hp]
  dsimp only
  have hn0 : ¬ ((dequeAppend SPEECH_BUFFER_FRAMES s.vad_decision_buffer
      (isSpeechDecision p)).length = 0) := by
    have := dequeAppend_length_pos SPEECH_BUFFER_FRAMES s.vad_decision_buffer
      (isSpeechDecision p) (by decide)
    omega
  rw [if_neg hn0, if_neg (by simp [hin]), if_pos hratio, if_neg htr]

lemma stepSpeakingFinalize (model : Scorer) (s : VadState) (f : List ℕ) (p : ℚ)
    (hf : f.length = FRAME_BYTES)
    (hp : frameSpeechProb model (bytesToInt16 f) = some p)
    (hin : s.in_speech = true)
    (hratio : mkRat
        (((dequeAppend SPEECH_BUFFER_FRAMES s.vad_decision_buffer
            (isSpeechDecision p)).count true : ℕ) : ℤ)
        (dequeAppend SPEECH_BUFFER_FRAMES s.vad_decision_buffer
            (isSpeechDecision p)).length < SPEECH_RELEASE_RATIO)
    (htr : (dequeAppend TRAILING_SILENCE_FRAMES s.trailing_silence_buffer f).length
        = TRAILING_SILENCE_FRAMES) :
    processFrame model s f =
      ⟨VadState.reset,
       if MIN_UTTERANCE_SAMPLES * 2 ≤ (s.speech_buffer ++ f).length
         then [s.speech_buffer ++ f] else [],
       false⟩ := by
  unfold processFrame
  rw [if_neg (by simp [hf])]
  dsimp only
  rw [hp]
  dsimp only
  have hn0 : ¬ ((dequeAppend SPEECH_BUFFER_FRAMES s.vad_decision_buffer
      (isSpeechDecision p)).length = 0) := by
    have := dequeAppend_length_pos SPEECH_BUFFER_FRAMES s.vad_decision_buffer
      (isSpeechDecision p) (by decide)
    omega
  rw [if_neg hn0, if_neg (by simp [hin]), if_pos hratio, if_pos htr]

/-! ### Closed forms for the decision window during the scenario -/

lemma SPEECH_BUFFER_FRAMES_eq : SPEECH_BUFFER_FRAMES = 15 := rfl

lemma PRE_SPEECH_FRAMES_eq : PRE_SPEECH_FRAMES = 12 := rfl

lemma TRAILING_SILENCE_FRAMES_eq : TRAILING_SILENCE_FRAMES = 21 := rfl

lemma FRAME_BYTES_eq : FRAME_BYTES = 1024 := rfl

lemma count_true_replicate_true (n : ℕ) :
    (List.replicate n true).count true = n := by
  simp

lemma pushTrue_replicate (m : ℕ) (hm : m ≤ 15) :
    dequeAppend SPEECH_BUFFER_FRAMES (List.replicate m true) true =
      List.replicate (min (m + 1) 15) true := by
  rcases Nat.lt_or_ge m 15 with h | h
  · rw [dequeAppend_of_lt _ _ _ (by simpa [SPEECH_BUFFER_FRAMES_eq]),
      ← List.replicate_succ', min_eq_left (by omega)]
  · have hm15 : m = 15 := by omega
    subst hm15
    rw [dequeAppend_of_full _ _ _ (by decide) (by simp [SPEECH_BUFFER_FRAMES_eq]),
      List.drop_replicate, min_eq_right (by omega)]
    simp [← List.replicate_succ']

/-- The decision window after `j ≥ 1` consecutive non-speech pushes that
followed a fully speech-filled warm-up of 14 frames. -/
def silenceBuf (j : ℕ) : List Bool :=
  List.replicate (15 - j) true ++ List.replicate (min j 15) false

lemma silenceBuf_length (j : ℕ) (hj : 1 ≤ j) : (silenceBuf j).length = 15 := by
  unfold silenceBuf
  simp
  omega

lemma silenceBuf_count (j : ℕ) : (silenceBuf j).count true = 15 - j := by
  unfold silenceBuf
  rw [List.count_append, List.count_replicate, List.count_replicate]
  simp

lemma pushFalse_replicate14 :
    dequeAppend SPEECH_BUFFER_FRAMES (List.replicate 14 true) false =
      silenceBuf 1 := by
  rw [dequeAppend_of_lt _ _ _ (by simp [SPEECH_BUFFER_FRAMES_eq])]
  unfold silenceBuf
  norm_num

lemma pushFalse_silenceBuf (j : ℕ) (hj : 1 ≤ j) :
    dequeAppend SPEECH_BUFFER_FRAMES (silenceBuf j) false = silenceBuf (j + 1) := by
  rw [dequeAppend_of_full _ _ _ (by decide)
    (by rw [silenceBuf_length j hj, SPEECH_BUFFER_FRAMES_eq])]
  rcases Nat.lt_or_ge j 15 with h | h
  · unfold silenceBuf
    rw [show 15 - j = (14 - j) + 1 by omega, List.replicate_succ, List.cons_append,
      List.drop_one, List.tail_cons, List.append_assoc, min_eq_left (by omega),
      min_eq_left (by omega), ← List.replicate_succ',
      show 15 - (j + 1) = 14 - j by omega]
  · unfold silenceBuf
    rw [show 15 - j = 0 by omega, show 15 - (j + 1) = 0 by omega,
      min_eq_right (by omega), min_eq_right (by omega)]
    simp [List.drop_replicate, ← List.replicate_succ']

lemma flatten_replicate_length (n : ℕ) (l : List ℕ) :
    (List.flatten (List.replicate n l)).length = n * l.length := by
  rw [List.length_flatten, List.map_replicate, List.sum_replicate, smul_eq_mul]

/-- Feeding `k` probability-0.95 frames while Speaking with an all-true
decision window keeps Speaking, keeps the window all-true and emits nothing. -/
lemma runSpeech (model : Scorer) (sf : List ℕ)
    (hsf : sf.length = FRAME_BYTES)
    (hps : frameSpeechProb model (bytesToInt16 sf) = some (mkRat 19 20)) :
    ∀ (k m : ℕ) (s : VadState), s.in_speech = true → s.partial_frame = [] →
      s.vad_decision_buffer = List.replicate m true → 1 ≤ m → m ≤ 15 →
      s.trailing_silence_buffer = [] →
      processChunks true model s (List.replicate k sf) =
        ⟨{ s with
            speech_buffer := s.speech_buffer ++ (List.replicate k sf).flatten
            pre_speech_buffer := dequePushes PRE_SPEECH_FRAMES sf k s.pre_speech_buffer
            vad_decision_buffer := List.replicate (min (m + k) 15) true
            trailing_silence_buffer := [] },
         List.replicate k sf, [], false⟩ := by
  intro k
  induction k with
  | zero =>
    intro m s hin hpart hvad hm1 hm15 htr
    rw [min_eq_left (by omega), Nat.add_zero]
    simp only [List.replicate, processChunks, dequePushes, List.flatten_nil,
      List.append_nil]
    rw [← hvad, ← htr]
  | succ k ih =>
    intro m s hin hpart hvad hm1 hm15 htr
    rw [List.replicate_succ, processChunks_cons_frame model s sf _ hpart hsf]
    have hdec : isSpeechDecision (mkRat 19 20) = true := by decide
    have hpush : dequeAppend SPEECH_BUFFER_FRAMES s.vad_decision_buffer
        (isSpeechDecision (mkRat 19 20)) = List.replicate (min (m + 1) 15) true := by
      rw [hvad, hdec, pushTrue_replicate m hm15]
    have hratio : ¬ (mkRat
        (((dequeAppend SPEECH_BUFFER_FRAMES s.vad_decision_buffer
            (isSpeechDecision (mkRat 19 20))).count true : ℕ) : ℤ)
        (dequeAppend SPEECH_BUFFER_FRAMES s.vad_decision_buffer
            (isSpeechDecision (mkRat 19 20))).length < SPEECH_RELEASE_RATIO) := by
      rw [hpush, count_true_replicate_true, List.length_replicate,
        ratio_lt_release_iff _ _ (by omega)]
      omega
    rw [stepSpeakingClear model s sf _ hsf hps hin hratio]
    dsimp only
    rw [hpush]
    rw [ih (min (m + 1) 15) _ (by exact hin) (by exact hpart) rfl (by omega) (by omega) rfl]
    dsimp only
    rw [show min (min (m + 1) 15 + k) 15 = min (m + (k + 1)) 15 by omega]
    simp only [List.flatten_cons, List.append_assoc, ← List.replicate_succ,
      dequePushes, List.append_nil, Bool.or_self]
    rw [List.replicate_succ, List.flatten_cons]

/-- Feeding probability-0.05 frames while Speaking, while the window ratio is
still at or above the release threshold: the trailing-silence ring is cleared
at every step. -/
lemma runSilenceClear (model : Scorer) (qf : List ℕ)
    (hqf : qf.length = FRAME_BYTES)
    (hpq : frameSpeechProb model (bytesToInt16 qf) = some (mkRat 1 20)) :
    ∀ (c j : ℕ) (s : VadState), s.in_speech = true → s.partial_frame = [] →
      s.vad_decision_buffer = silenceBuf j → 1 ≤ j → j + c ≤ 11 →
      s.trailing_silence_buffer = [] →
      processChunks true model s (List.replicate c qf) =
        ⟨{ s with
            speech_buffer := s.speech_buffer ++ (List.replicate c qf).flatten
            pre_speech_buffer := dequePushes PRE_SPEECH_FRAMES qf c s.pre_speech_buffer
            vad_decision_buffer := silenceBuf (j + c)
            trailing_silence_buffer := [] },
         List.replicate c qf, [], false⟩ := by
  intro c
  induction c with
  | zero =>
    intro j s hin hpart hvad hj1 hj11 htr
    rw [Nat.add_zero]
    simp only [List.replicate, processChunks, dequePushes, List.flatten_nil,
      List.append_nil]
    rw [← hvad, ← htr]
  | succ c ih =>
    intro j s hin hpart hvad hj1 hj11 htr
    rw [List.replicate_succ, processChunks_cons_frame model s qf _ hpart hqf]
    have hdec : isSpeechDecision (mkRat 1 20) = false := by decide
    have hpush : dequeAppend SPEECH_BUFFER_FRAMES s.vad_decision_buffer
        (isSpeechDecision (mkRat 1 20)) = silenceBuf (j + 1) := by
      rw [hvad, hdec, pushFalse_silenceBuf j hj1]
    have hratio : ¬ (mkRat
        (((dequeAppend SPEECH_BUFFER_FRAMES s.vad_decision_buffer
            (isSpeechDecision (mkRat 1 20))).count true : ℕ) : ℤ)
        (dequeAppend SPEECH_BUFFER_FRAMES s.vad_decision_buffer
            (isSpeechDecision (mkRat 1 20))).length < SPEECH_RELEASE_RATIO) := by
      rw [hpush, silenceBuf_count, silenceBuf_length _ (by omega),
        ratio_lt_release_iff _ _ (by omega)]
      omega
    rw [stepSpeakingClear model s qf _ hqf hpq hin hratio]
    dsimp only
    rw [hpush]
    rw [ih (j + 1) _ (by exact hin) (by exact hpart) rfl (by omega) (by omega) rfl]
    dsimp only
    rw [show j + 1 + c = j + (c + 1) by omega]
    simp only [List.flatten_cons, List.append_assoc, ← List.replicate_succ,
      dequePushes, List.append_nil, Bool.or_self]
    rw [List.replicate_succ, List.flatten_cons]

/-- Feeding probability-0.05 frames while Speaking once the window ratio has
collapsed below the release threshold: the trailing-silence ring grows by one
frame per step (still short of its capacity). -/
lemma runSilenceCount (model : Scorer) (qf : List ℕ)
    (hqf : qf.length = FRAME_BYTES)
    (hpq : frameSpeechProb model (bytesToInt16 qf) = some (mkRat 1 20)) :
    ∀ (c j : ℕ) (s : VadState), s.in_speech = true → s.partial_frame = [] →
      s.vad_decision_buffer = silenceBuf j → 11 ≤ j → j + c ≤ 31 →
      s.trailing_silence_buffer = List.replicate (j - 11) qf →
      processChunks true model s (List.replicate c qf) =
        ⟨{ s with
            speech_buffer := s.speech_buffer ++ (List.replicate c qf).flatten
            pre_speech_buffer := dequePushes PRE_SPEECH_FRAMES qf c s.pre_speech_buffer
            vad_decision_buffer := silenceBuf (j + c)
            trailing_silence_buffer := List.replicate (j + c - 11) qf },
         List.replicate c qf, [], false⟩ := by
  intro c
  induction c with
  | zero =>
    intro j s hin hpart hvad hj11 hj31 htr
    rw [Nat.add_zero]
    simp only [List.replicate, processChunks, dequePushes, List.flatten_nil,
      List.append_nil]
    rw [← hvad, ← htr]
  | succ c ih =>
    intro j s hin hpart hvad hj11 hj31 htr
    rw [List.replicate_succ, processChunks_cons_frame model s qf _ hpart hqf]
    have hdec : isSpeechDecision (mkRat 1 20) = false := by decide
    have hpush : dequeAppend SPEECH_BUFFER_FRAMES s.vad_decision_buffer
        (isSpeechDecision (mkRat 1 20)) = silenceBuf (j + 1) := by
      rw [hvad, hdec, pushFalse_silenceBuf j (by omega)]
    have hratio : mkRat
        (((dequeAppend SPEECH_BUFFER_FRAMES s.vad_decision_buffer
            (isSpeechDecision (mkRat 1 20))).count true : ℕ) : ℤ)
        (dequeAppend SPEECH_BUFFER_FRAMES s.vad_decision_buffer
            (isSpeechDecision (mkRat 1 20))).length < SPEECH_RELEASE_RATIO := by
      rw [hpush, silenceBuf_count, silenceBuf_length _ (by omega),
        ratio_lt_release_iff _ _ (by omega)]
      omega
    have htrpush : dequeAppend TRAILING_SILENCE_FRAMES s.trailing_silence_buffer qf =
        List.replicate (j + 1 - 11) qf := by
      rw [htr, dequeAppend_of_lt _ _ _
        (by rw [List.length_replicate, TRAILING_SILENCE_FRAMES_eq]; omega),
        ← List.replicate_succ', show j - 11 + 1 = j + 1 - 11 by omega]
    have htrne : ¬ ((dequeAppend TRAILING_SILENCE_FRAMES s.trailing_silence_buffer
        qf).length = TRAILING_SILENCE_FRAMES) := by
      rw [htrpush, List.length_replicate, TRAILING_SILENCE_FRAMES_eq]
      omega
    rw [stepSpeakingCount model s qf _ hqf hpq hin hratio htrne]
    dsimp only
    rw [hpush, htrpush]
    rw [ih (j + 1) _ (by exact hin) (by exact hpart) rfl (by omega) (by omega) rfl]
    dsimp only
    rw [show j + 1 + c = j + (c + 1) by omega]
    simp only [List.flatten_cons, List.append_assoc, ← List.replicate_succ,
      dequePushes, List.append_nil, Bool.or_self]
    rw [List.replicate_succ, List.flatten_cons]

/-! ### The concrete hysteresis scenario -/

lemma dequePushes_dequePushes {α : Type} (m : ℕ) (x : α) (a b : ℕ) (xs : List α) :
    dequePushes m x a (dequePushes m x b xs) = dequePushes m x (b + a) xs := by
  induction b generalizing xs with
  | zero =>
    rw [Nat.zero_add]
    simp [dequePushes]
  | succ b ih =>
    rw [show b + 1 + a = (b + a) + 1 by omega]
    simp only [dequePushes]
    rw [ih]

/-- Frame 1 of the scenario: from a fresh state, a single probability-0.95
frame already fires the Idle→Speaking transition (the warm-up window holds a
single `true`, so the ratio is 1). -/
lemma scenarioA :
    processFrame scenarioModel VadState.reset speechFrame =
      ⟨⟨speechFrame ++ speechFrame, [speechFrame], [true], [], true,
        some (), some (), []⟩, [], false⟩ := by
  rw [stepIdleTrigger scenarioModel VadState.reset speechFrame (mkRat 19 20)
    speechFrame_length frameSpeechProb_speechFrame rfl (by decide)]
  simp [VadState.reset, dequeAppend, PRE_SPEECH_FRAMES_eq, SPEECH_BUFFER_FRAMES_eq,
    show isSpeechDecision (mkRat 19 20) = true from by decide]

/-- Feeding `k ≤ 15` probability-0.95 frames from a fresh state: Speaking
from the first frame on, window all-true, nothing emitted. -/
lemma scenarioSpeechRun (k : ℕ) (hk : 1 ≤ k) (hk15 : k ≤ 15) :
    processChunks true scenarioModel VadState.reset (List.replicate k speechFrame) =
      ⟨⟨(speechFrame ++ speechFrame) ++ (List.replicate (k - 1) speechFrame).flatten,
        dequePushes PRE_SPEECH_FRAMES speechFrame (k - 1) [speechFrame],
        List.replicate k true, [], true, some (), some (), []⟩,
       List.replicate k speechFrame, [], false⟩ := by
  obtain ⟨k, rfl⟩ : ∃ n, k = n + 1 := ⟨k - 1, by omega⟩
  rw [List.replicate_succ,
    processChunks_cons_frame scenarioModel VadState.reset speechFrame _ rfl
      speechFrame_length, scenarioA]
  dsimp only
  rw [runSpeech scenarioModel speechFrame speechFrame_length
    frameSpeechProb_speechFrame k 1 _ rfl rfl rfl (by omega) (by omega) rfl]
  dsimp only
  rw [show min (1 + k) 15 = k + 1 by omega]
  simp

/-- Feeding `11 ≤ c ≤ 31` probability-0.05 frames while Speaking with a fully
speech-filled window (14 trues): the ratio stays at or above the release
threshold for the first 11 frames (trailing ring repeatedly cleared) and only
from the 12th on does the trailing ring start to fill, reaching `c - 11`
frames — still short of the 21 needed to finalize. -/
lemma scenarioSilenceRun (c : ℕ) (h11 : 11 ≤ c) (h31 : c ≤ 31) :
    ∀ s : VadState, s.in_speech = true → s.partial_frame = [] →
      s.vad_decision_buffer = List.replicate 14 true →
      s.trailing_silence_buffer = [] →
      processChunks true scenarioModel s (List.replicate c lowProbFrame) =
        ⟨{ s with
            speech_buffer := s.speech_buffer ++ (List.replicate c lowProbFrame).flatten
            pre_speech_buffer := dequePushes PRE_SPEECH_FRAMES lowProbFrame c s.pre_speech_buffer
            vad_decision_buffer := silenceBuf c
            trailing_silence_buffer := List.replicate (c - 11) lowProbFrame },
         List.replicate c lowProbFrame, [], false⟩ := by
  intro s hin hpart hvad htr
  rw [show List.replicate c lowProbFrame =
      lowProbFrame :: (List.replicate 10 lowProbFrame ++
        List.replicate (c - 11) lowProbFrame) by
    rw [← List.replicate_add, show 10 + (c - 11) = c - 1 by omega,
      ← List.replicate_succ, show c - 1 + 1 = c by omega]]
  rw [processChunks_cons_frame scenarioModel s lowProbFrame _ hpart lowProbFrame_length]
  have hdec : isSpeechDecision (mkRat 1 20) = false := by decide
  have hpush : dequeAppend SPEECH_BUFFER_FRAMES s.vad_decision_buffer
      (isSpeechDecision (mkRat 1 20)) = silenceBuf 1 := by
    rw [hvad, hdec, pushFalse_replicate14]
  have hratio : ¬ (mkRat
      (((dequeAppend SPEECH_BUFFER_FRAMES s.vad_decision_buffer
          (isSpeechDecision (mkRat 1 20))).count true : ℕ) : ℤ)
      (dequeAppend SPEECH_BUFFER_FRAMES s.vad_decision_buffer
          (isSpeechDecision (mkRat 1 20))).length < SPEECH_RELEASE_RATIO) := by
    rw [hpush, silenceBuf_count, silenceBuf_length _ (by omega),
      ratio_lt_release_iff _ _ (by omega)]
    omega
  rw [stepSpeakingClear scenarioModel s lowProbFrame _ lowProbFrame_length
    frameSpeechProb_lowProbFrame hin hratio]
  dsimp only
  rw [hpush]
  rw [processChunks_append]
  dsimp only
  rw [runSilenceClear scenarioModel lowProbFrame lowProbFrame_length
    frameSpeechProb_lowProbFrame 10 1 _ (by exact hin) (by exact hpart) rfl
    (by omega) (by omega) rfl]
  dsimp only
  rw [runSilenceCount scenarioModel lowProbFrame lowProbFrame_length
    frameSpeechProb_lowProbFrame (c - 11) 11 _ (by exact hin) (by exact hpart) rfl
    (by omega) (by omega) (by simp)]
  dsimp only
  rw [show (11 : ℕ) + (c - 11) = c by omega]
  have hpre : dequePushes PRE_SPEECH_FRAMES lowProbFrame (c - 11)
      (dequePushes PRE_SPEECH_FRAMES lowProbFrame 10
        (dequeAppend PRE_SPEECH_FRAMES s.pre_speech_buffer lowProbFrame)) =
      dequePushes PRE_SPEECH_FRAMES lowProbFrame c s.pre_speech_buffer := by
    rw [show dequeAppend PRE_SPEECH_FRAMES s.pre_speech_buffer lowProbFrame =
        dequePushes PRE_SPEECH_FRAMES lowProbFrame 1 s.pre_speech_buffer from rfl,
      dequePushes_dequePushes, dequePushes_dequePushes,
      show (1 : ℕ) + (10 + (c - 11)) = c by omega]
  rw [hpre]
  simp [List.flatten_cons, List.append_assoc]

/-- The finalizing silence frame: with the trailing ring at 20 of 21 and the
window ratio collapsed, one more probability-0.05 frame completes the ring
and resets the state; the utterance is emitted exactly when the accumulated
bytes meet the minimum. -/
lemma scenarioFinalStep :
    ∀ s : VadState, s.in_speech = true → s.partial_frame = [] →
      s.vad_decision_buffer = silenceBuf 31 →
      s.trailing_silence_buffer = List.replicate 20 lowProbFrame →
      processChunks true scenarioModel s [lowProbFrame] =
        ⟨VadState.reset, [lowProbFrame],
         if MIN_UTTERANCE_SAMPLES * 2 ≤ (s.speech_buffer ++ lowProbFrame).length
           then [s.speech_buffer ++ lowProbFrame] else [],
         false⟩ := by
  intro s hin hpart hvad htr
  rw [processChunks_cons_frame scenarioModel s lowProbFrame _ hpart lowProbFrame_length]
  have hdec : isSpeechDecision (mkRat 1 20) = false := by decide
  have hpush : dequeAppend SPEECH_BUFFER_FRAMES s.vad_decision_buffer
      (isSpeechDecision (mkRat 1 20)) = silenceBuf 32 := by
    rw [hvad, hdec, pushFalse_silenceBuf 31 (by omega)]
  have hratio : mkRat
      (((dequeAppend SPEECH_BUFFER_FRAMES s.vad_decision_buffer
          (isSpeechDecision (mkRat 1 20))).count true : ℕ) : ℤ)
      (dequeAppend SPEECH_BUFFER_FRAMES s.vad_decision_buffer
          (isSpeechDecision (mkRat 1 20))).length < SPEECH_RELEASE_RATIO := by
    rw [hpush, silenceBuf_count, silenceBuf_length _ (by omega),
      ratio_lt_release_iff _ _ (by omega)]
    omega
  have htrfull : (dequeAppend TRAILING_SILENCE_FRAMES s.trailing_silence_buffer
      lowProbFrame).length = TRAILING_SILENCE_FRAMES := by
    rw [htr, dequeAppend_of_lt _ _ _
      (by rw [List.length_replicate, TRAILING_SILENCE_FRAMES_eq]; omega)]
    simp [TRAILING_SILENCE_FRAMES_eq]
  rw [stepSpeakingFinalize scenarioModel s lowProbFrame _ lowProbFrame_length
    frameSpeechProb_lowProbFrame hin hratio htrfull]
  dsimp only
  simp [processChunks]

/-- Fourteen probability-0.95 frames followed by `11 ≤ c ≤ 31` probability-0.05
frames: still Speaking, trailing ring at `c - 11` of 21, nothing emitted. -/
lemma scenarioRun14Silence (c : ℕ) (h11 : 11 ≤ c) (h31 : c ≤ 31) :
    processChunks true scenarioModel VadState.reset
      (List.replicate 14 speechFrame ++ List.replicate c lowProbFrame) =
      ⟨⟨((speechFrame ++ speechFrame) ++ (List.replicate 13 speechFrame).flatten)
          ++ (List.replicate c lowProbFrame).flatten,
        dequePushes PRE_SPEECH_FRAMES lowProbFrame c
          (dequePushes PRE_SPEECH_FRAMES speechFrame 13 [speechFrame]),
        silenceBuf c, List.replicate (c - 11) lowProbFrame,
        true, some (), some (), []⟩,
       List.replicate 14 speechFrame ++ List.replicate c lowProbFrame,
       [], false⟩ := by
  rw [processChunks_append]
  dsimp only
  rw [scenarioSpeechRun 14 (by omega) (by omega)]
  dsimp only
  rw [scenarioSilenceRun c h11 h31 _ rfl rfl (by norm_num) rfl]
  simp

/-- The full scenario: 14 probability-0.95 frames and 32 probability-0.05
frames. The 32nd silence frame completes the trailing ring, emits the
accumulated utterance (47 frames of audio — well above the minimum) and
resets the connection state. -/
lemma scenarioRun46 :
    processChunks true scenarioModel VadState.reset
      (List.replicate 14 speechFrame ++ List.replicate 32 lowProbFrame) =
      ⟨VadState.reset,
       List.replicate 14 speechFrame ++ List.replicate 32 lowProbFrame,
       [(((speechFrame ++ speechFrame) ++ (List.replicate 13 speechFrame).flatten)
          ++ (List.replicate 31 lowProbFrame).flatten) ++ lowProbFrame],
       false⟩ := by
  rw [show List.replicate 32 lowProbFrame =
      List.replicate 31 lowProbFrame ++ [lowProbFrame] by
    rw [← List.replicate_succ']]
  rw [← List.append_assoc, processChunks_append]
  dsimp only
  rw [scenarioRun14Silence 31 (by omega) (by omega)]
  dsimp only
  rw [scenarioFinalStep _ rfl rfl rfl (by norm_num)]
  dsimp only
  rw [if_pos (by
    simp only [List.length_append, flatten_replicate_length, speechFrame_length,
      lowProbFrame_length, FRAME_BYTES_eq]
    norm_num [MIN_UTTERANCE_SAMPLES])]
  simp [List.append_assoc]

/-! ### Claim C1 -/

/-- C1 counterexample. The claim asserts the machine is still Idle before the
14th probability-0.95 frame and that the state resets to Idle exactly on the
21st probability-0.05 frame. On the code, from a fresh state: after 13 speech
frames the machine is already Speaking (it transitions on the very first
frame, where the warm-up window ratio is 1/1); and after the 21st silence
frame the machine is still Speaking with nothing emitted (the window ratio
only falls below the release threshold at the 12th silence frame, so the
trailing ring holds just 10 of the 21 frames needed to reset). -/
theorem C1_counterexample :
    (processChunks true scenarioModel VadState.reset
        (List.replicate 13 speechFrame)).state.in_speech = true ∧
    (processChunks true scenarioModel VadState.reset
        (List.replicate 14 speechFrame ++ List.replicate 21 lowProbFrame)).outputs
      = [] ∧
    (processChunks true scenarioModel VadState.reset
        (List.replicate 14 speechFrame ++ List.replicate 21 lowProbFrame)).state.in_speech
      = true := by
  refine ⟨?_, ?_, ?_⟩
  · rw [scenarioSpeechRun 13 (by omega) (by omega)]
  · rw [scenarioRun14Silence 21 (by omega) (by omega)]
  · rw [scenarioRun14Silence 21 (by omega) (by omega)]

/-- C1 amended. Hysteresis scenario on the code as written: with
SAMPLE_RATE=16000, FRAME_DURATION_MS=32, SPEECH_BUFFER_FRAMES=15 and
SPEECH_TRIGGER_RATIO=0.90, starting from a fresh connection state, the very
first complete frame with speech probability 0.95 triggers Idle→Speaking
(not the 14th: the warm-up window ratio is 1/1 ≥ 0.90); after 14 such frames
(still Speaking, nothing emitted), feeding consecutive frames with speech
probability 0.05 resets the state to Idle exactly on the 32nd such frame
(11 frames to drain the window ratio below 0.25, then 21 to fill the
trailing-silence ring), emitting the accumulated utterance of 47 frames =
48128 bytes, which meets the 38400-byte minimum. -/
theorem C1_amended :
    (processChunks true scenarioModel VadState.reset [speechFrame]).state.in_speech
      = true ∧
    (processChunks true scenarioModel VadState.reset
        (List.replicate 14 speechFrame ++ List.replicate 31 lowProbFrame)).outputs
      = [] ∧
    (processChunks true scenarioModel VadState.reset
        (List.replicate 14 speechFrame ++ List.replicate 31 lowProbFrame)).state.in_speech
      = true ∧
    (processChunks true scenarioModel VadState.reset
        (List.replicate 14 speechFrame ++ List.replicate 32 lowProbFrame)).outputs.map
        List.length = [47 * FRAME_BYTES] ∧
    MIN_UTTERANCE_SAMPLES * 2 ≤ 47 * FRAME_BYTES ∧
    (processChunks true scenarioModel VadState.reset
        (List.replicate 14 speechFrame ++ List.replicate 32 lowProbFrame)).state
      = VadState.reset := by
  refine ⟨?_, ?_, ?_, ?_,
    by norm_num [MIN_UTTERANCE_SAMPLES, FRAME_BYTES_eq], ?_⟩
  · rw [show [speechFrame] = List.replicate 1 speechFrame from rfl,
      scenarioSpeechRun 1 (by omega) (by omega)]
  · rw [scenarioRun14Silence 31 (by omega) (by omega)]
  · rw [scenarioRun14Silence 31 (by omega) (by omega)]
  · rw [scenarioRun46]
    simp only [List.map_cons, List.map_nil, List.length_append,
      flatten_replicate_length, speechFrame_length, lowProbFrame_length,
      FRAME_BYTES_eq]
  · rw [scenarioRun46]

/-! ### Claim C7 -/

/-- C7: passthrough equivalence. With the scoring capability unavailable at
construction time (`vad_model_loaded = false`), every `process_audio_chunk`
call forwards its input chunk to the downstream sink byte-for-byte, unchanged
and immediately, exactly once per call (`outputs = [chunk]`), with no
segmentation (no frames carved) and no connection state mutated. -/
theorem C7_passthrough_equivalence (model : Scorer) (s : VadState)
    (chunk : List ℕ) :
    process_audio_chunk false model s chunk = ⟨s, [], [chunk], false⟩ := rfl

/-! ### Claim C8 -/

/-- C8 counterexample. The claim says a zero-length chunk never invokes the
downstream sink "in every mode" — but in passthrough mode the source
forwards every chunk unconditionally, so an empty chunk produces one sink
call carrying empty bytes. -/
theorem C8_counterexample :
    (process_audio_chunk false scenarioModel VadState.reset []).outputs
      = [[]] := rfl

/-- C8 amended. A zero-length input chunk is a no-op in VAD mode: no frames
are carved, the stored remainder and all other connection state are
unchanged, and the sink is not invoked (given the documented invariant that
the remainder is shorter than a frame). In passthrough mode, however, the
empty chunk is still forwarded to the sink, exactly once. -/
theorem C8_amended (model : Scorer) (s : VadState) :
    (s.partial_frame.length < FRAME_BYTES →
      process_audio_chunk true model s [] = ⟨s, [], [], false⟩) ∧
    process_audio_chunk false model s [] = ⟨s, [], [[]], false⟩ := by
  constructor
  · intro h
    unfold process_audio_chunk
    rw [if_neg (by simp), List.append_nil,
      processFrames_small model _ _ (by simpa using h)]
    simp
  · rfl

/-- C8 witness: the amended VAD-mode no-op at the fresh state. -/
theorem C8_witness :
    process_audio_chunk true scenarioModel VadState.reset []
      = ⟨VadState.reset, [], [], false⟩ :=
  (C8_amended scenarioModel VadState.reset).1 (by decide)

/-! ### Claim C2 -/

/-- If the frame passes the energy gate and the model call raises, the
exception propagates out of `_process_frame` with the state untouched and
nothing emitted (there is no handler in the source). -/
lemma processFrame_raises (model : Scorer) (s : VadState) (f : List ℕ)
    (hf : f.length = FRAME_BYTES)
    (hgate : ¬ rmsBelowGate (bytesToInt16 f))
    (hm : model (normalize (bytesToInt16 f)) = none) :
    processFrame model s f = ⟨s, [], true⟩ := by
  unfold processFrame
  rw [if_neg (by simp [hf])]
  dsimp only
  rw [show frameSpeechProb model (bytesToInt16 f) = none by
    unfold frameSpeechProb
    rw [if_neg hgate, hm]]

/-- C2 counterexample. The claim says a scoring-capability exception turns
that frame's decision into non-speech and is never propagated to the caller
of `process_chunk`. On the code there is no handler: feeding one loud frame
to a raising scorer makes `process_audio_chunk` itself raise (`errored`). -/
theorem C2_counterexample :
    (process_audio_chunk true raisingModel VadState.reset speechFrame).errored
      = true := by
  rw [process_audio_chunk_single raisingModel VadState.reset speechFrame rfl
    speechFrame_length,
    processFrame_raises raisingModel VadState.reset speechFrame
      speechFrame_length not_gate_speechFrame rfl]

/-- C2 amended. If the scoring capability raises an exception while scoring a
frame (the frame passed the energy gate, so the model was consulted), the
exception propagates to the caller of `process_chunk`: the frame's decision
is not forced to non-speech, no state is mutated for that frame, nothing is
emitted, and the rest of the chunk is not processed. -/
theorem C2_amended (model : Scorer) (s : VadState) (f : List ℕ)
    (hf : f.length = FRAME_BYTES)
    (hgate : ¬ rmsBelowGate (bytesToInt16 f))
    (hm : model (normalize (bytesToInt16 f)) = none) :
    processFrame model s f = ⟨s, [], true⟩ :=
  processFrame_raises model s f hf hgate hm

/-- C2 witness: the raising scorer on a concrete loud frame. -/
theorem C2_witness :
    processFrame raisingModel VadState.reset speechFrame
      = ⟨VadState.reset, [], true⟩ :=
  C2_amended raisingModel VadState.reset speechFrame speechFrame_length
    not_gate_speechFrame rfl


/-- The source trigger test (`ratio >= 0.90 and count >= int(0.6*n)`) agrees
with the spec reading (`ratio ≥ 0.90` and `count ≥ ⌈0.60·n⌉`): whenever the
ratio clears 0.90 the count exceeds 0.9·n > 0.6·n, so both secondary guards
(floor and ceiling alike) are automatically satisfied. -/
lemma trigger_conditions_iff (t n : ℕ) (hn : 0 < n) :
    ( SPEECH_TRIGGER_RATIO ≤ mkRat (t : ℤ) n ∧ 3 * n / 5 ≤ t) ↔
      ((0.90 : ℚ) ≤ (t : ℚ) / (n : ℚ) ∧ ⌈(0.60 : ℚ) * (n : ℚ)⌉ ≤ (t : ℤ)) := by
  rw [trigger_le_ratio_iff t n hn]
  have hq : ((0.90 : ℚ) ≤ (t : ℚ) / (n : ℚ)) ↔ 9 * n ≤ 10 * t := by
    rw [show (0.90 : ℚ) = 9 / 10 by norm_num,
      div_le_div_iff₀ (by norm_num) (by exact_mod_cast hn)]
    constructor
    · intro h
      have : (9 * n : ℚ) ≤ 10 * t := by linarith
      exact_mod_cast this
    · intro h
      have : (9 * n : ℚ) ≤ 10 * t := by exact_mod_cast h
      linarith
  constructor
  · rintro ⟨h9, _⟩
    refine ⟨hq.mpr h9, ?_⟩
    rw [Int.ceil_le]
    have h : (9 * n : ℚ) ≤ 10 * t := by exact_mod_cast h9
    push_cast
    nlinarith
  · rintro ⟨h9, _⟩
    have h9 := hq.mp h9
    exact ⟨h9, by omega⟩

/-- C4: while the machine is Idle, a processed frame fires the
Idle→Speaking transition iff the decision-window ratio (over the window as
updated with this frame's decision) is ≥ 0.90 and the window's true-count is
≥ ⌈0.60·n⌉ for the current fill n. -/
theorem C4_trigger_iff (model : Scorer) (s : VadState) (f : List ℕ) (p : ℚ)
    (hIdle : s.in_speech = false)
    (hf : f.length = FRAME_BYTES)
    (hp : frameSpeechProb model (bytesToInt16 f) = some p) :
    ((processFrame model s f).state.in_speech = true ↔
      ((0.90 : ℚ) ≤
          (((dequeAppend SPEECH_BUFFER_FRAMES s.vad_decision_buffer
              (isSpeechDecision p)).count true : ℚ) /
            ((dequeAppend SPEECH_BUFFER_FRAMES s.vad_decision_buffer
              (isSpeechDecision p)).length : ℚ)) ∧
        ⌈(0.60 : ℚ) *
            ((dequeAppend SPEECH_BUFFER_FRAMES s.vad_decision_buffer
              (isSpeechDecision p)).length : ℚ)⌉ ≤
          ((dequeAppend SPEECH_BUFFER_FRAMES s.vad_decision_buffer
              (isSpeechDecision p)).count true : ℤ))) := by
  have hn : 0 < (dequeAppend SPEECH_BUFFER_FRAMES s.vad_decision_buffer
      (isSpeechDecision p)).length :=
    dequeAppend_length_pos _ _ _ (by decide)
  rw [← trigger_conditions_iff _ _ hn]
  unfold processFrame
  rw [if_neg (by simp [hf])]
  dsimp only
  rw [hp]
  dsimp only
  have hn0 : ¬ ((dequeAppend SPEECH_BUFFER_FRAMES s.vad_decision_buffer
      (isSpeechDecision p)).length = 0) := by omega
  rw [if_neg hn0, if_pos hIdle]
  split
  · rename_i hcond
    exact iff_of_true rfl hcond
  · rename_i hcond
    exact iff_of_false (by simp [hIdle]) hcond

/-- C4 witness: the fresh state and a concrete probability-0.95 frame. -/
theorem C4_witness :
    ((processFrame scenarioModel VadState.reset speechFrame).state.in_speech = true ↔
      ((0.90 : ℚ) ≤
          (((dequeAppend SPEECH_BUFFER_FRAMES VadState.reset.vad_decision_buffer
              (isSpeechDecision (mkRat 19 20))).count true : ℚ) /
            ((dequeAppend SPEECH_BUFFER_FRAMES VadState.reset.vad_decision_buffer
              (isSpeechDecision (mkRat 19 20))).length : ℚ)) ∧
        ⌈(0.60 : ℚ) *
            ((dequeAppend SPEECH_BUFFER_FRAMES VadState.reset.vad_decision_buffer
              (isSpeechDecision (mkRat 19 20))).length : ℚ)⌉ ≤
          ((dequeAppend SPEECH_BUFFER_FRAMES VadState.reset.vad_decision_buffer
              (isSpeechDecision (mkRat 19 20))).count true : ℤ))) :=
  C4_trigger_iff scenarioModel VadState.reset speechFrame (mkRat 19 20) rfl
    speechFrame_length frameSpeechProb_speechFrame

/-! ### Claim C10 -/

/-- C10: on every Idle→Speaking transition the triggering frame's bytes enter
the speech accumulation twice — the frame was already appended to the
pre-speech ring before the transition check (line 195), the whole ring is
flushed into the accumulation (lines 211-212), and the frame is then appended
once more explicitly (line 214). Hence the accumulation ends with the onset
frame duplicated: `f ++ f` is a suffix of the new `speech_buffer`. -/
theorem C10_onset_duplicated (model : Scorer) (s : VadState) (f : List ℕ)
    (hIdle : s.in_speech = false)
    (hTrig : (processFrame model s f).state.in_speech = true) :
    f ++ f <:+ (processFrame model s f).state.speech_buffer := by
  unfold processFrame at hTrig ⊢
  by_cases hlen : f.length ≠ FRAME_BYTES
  · rw [if_pos hlen] at hTrig
    exact absurd hTrig (by simp [hIdle])
  · rw [if_neg hlen] at hTrig ⊢
    dsimp only at hTrig ⊢
    rcases hfp : frameSpeechProb model (bytesToInt16 f) with _ | p
    · rw [hfp] at hTrig
      exact absurd hTrig (by simp [hIdle])
    · rw [hfp] at hTrig
      dsimp only at hTrig ⊢
      have hn0 : ¬ ((dequeAppend SPEECH_BUFFER_FRAMES s.vad_decision_buffer
          (isSpeechDecision p)).length = 0) := by
        have := dequeAppend_length_pos SPEECH_BUFFER_FRAMES s.vad_decision_buffer
          (isSpeechDecision p) (by decide)
        omega
      rw [if_neg hn0, if_pos hIdle] at hTrig ⊢
      split at hTrig
      · rename_i hcond
        rw [if_pos hcond]
        obtain ⟨ys, hys⟩ :=
          dequeAppend_snoc PRE_SPEECH_FRAMES s.pre_speech_buffer f (by decide)
        rw [hys]
        refine ⟨s.speech_buffer ++ ys.flatten, ?_⟩
        simp [List.append_assoc]
      · exact absurd hTrig (by simp [hIdle])

/-- C10 witness: the fresh state and a concrete probability-0.95 frame (the
transition fires, and the accumulation ends in the frame twice). -/
theorem C10_witness :
    speechFrame ++ speechFrame <:+
      (processFrame scenarioModel VadState.reset speechFrame).state.speech_buffer :=
  C10_onset_duplicated scenarioModel VadState.reset speechFrame rfl
    (by simp [scenarioA])

/-! ### Claim C5 -/

lemma processFrame_outputs_min (model : Scorer) (s : VadState) (f : List ℕ) :
    ∀ u ∈ (processFrame model s f).outputs,
      MIN_UTTERANCE_SAMPLES * 2 ≤ u.length := by
  unfold processFrame
  split
  · simp
  · dsimp only
    rcases hfp : frameSpeechProb model (bytesToInt16 f) with _ | p
    · simp
    · dsimp only
      repeat' split
      all_goals simp_all

lemma processFrames_outputs_min (model : Scorer) :
    ∀ (n : ℕ) (b : List ℕ), b.length = n → ∀ (s : VadState) (u : List ℕ),
      u ∈ (processFrames model s b).outputs →
      MIN_UTTERANCE_SAMPLES * 2 ≤ u.length := by
  intro n
  induction n using Nat.strong_induction_on with
  | _ n ih =>
    intro b hn s u hu
    by_cases hb : FRAME_BYTES ≤ b.length
    · rw [processFrames_step model s b hb] at hu
      dsimp only at hu
      split at hu
      · exact processFrame_outputs_min model s _ u hu
      · rcases List.mem_append.mp hu with h | h
        · exact processFrame_outputs_min model s _ u h
        · have hFB : 0 < FRAME_BYTES := by decide
          exact ih (b.length - FRAME_BYTES) (by omega) (b.drop FRAME_BYTES)
            (by simp) _ u h
    · rw [processFrames_small model s b (by omega)] at hu
      simp at hu

/-- C5: every utterance delivered to the downstream sink by the segmentation
path has byte length ≥ MIN_UTTERANCE_SAMPLES * 2 (38400 bytes at the
defaults); a shorter accumulation is silently discarded at finalization (the
same emission test yields no sink call and the state still resets). -/
theorem C5_min_length (model : Scorer) (s : VadState) (chunk : List ℕ)
    (u : List ℕ) (hu : u ∈ (process_audio_chunk true model s chunk).outputs) :
    MIN_UTTERANCE_SAMPLES * 2 ≤ u.length := by
  unfold process_audio_chunk at hu
  rw [if_neg (by simp)] at hu
  exact processFrames_outputs_min model _ _ rfl _ u hu

/-- C5 witness: a Speaking state one silent frame away from finalization with
a 38400-byte accumulation emits an utterance of 39424 bytes. -/
theorem C5_witness :
    MIN_UTTERANCE_SAMPLES * 2 ≤ (List.replicate 38400 (0 : ℕ) ++ zeroFrame).length :=
  C5_min_length scenarioModel
    ⟨List.replicate 38400 0, [], List.replicate 15 false,
     List.replicate 20 zeroFrame, true, some (), some (), []⟩
    zeroFrame (List.replicate 38400 0 ++ zeroFrame)
    (by
      rw [process_audio_chunk_single scenarioModel _ zeroFrame rfl zeroFrame_length,
        stepSpeakingFinalize scenarioModel _ zeroFrame 0 zeroFrame_length
          (frameSpeechProb_zeroFrame scenarioModel) rfl (by decide) (by decide)]
      rw [if_pos (by
        simp only [List.length_append, List.length_replicate, zeroFrame_length,
          FRAME_BYTES_eq]
        norm_num [MIN_UTTERANCE_SAMPLES])]
      exact List.mem_singleton_self _)

/-! ### Claim C9 -/

/-- Connection states reachable through any sequence of `process_audio_chunk`
and `cleanup_connection` operations. Cleanup deletes the per-connection
state, so the next chunk for that id starts from a fresh `VadState.reset` —
covered by `init` (the registry's `get_state` creates states only via
`VadState.__init__`, which is `reset`). -/
inductive ReachableState : VadState → Prop
  | init : ReachableState VadState.reset
  | step (vad_model_loaded : Bool) (model : Scorer) (chunk : List ℕ)
      {s : VadState} : ReachableState s →
      ReachableState (process_audio_chunk vad_model_loaded model s chunk).state

lemma processFrame_idle_empty (model : Scorer) (s : VadState) (f : List ℕ)
    (hP : s.in_speech = false → s.speech_buffer = []) :
    (processFrame model s f).state.in_speech = false →
    (processFrame model s f).state.speech_buffer = [] := by
  unfold processFrame
  split
  · exact hP
  · dsimp only
    rcases hfp : frameSpeechProb model (bytesToInt16 f) with _ | p
    · exact hP
    · dsimp only
      repeat' split
      all_goals intro h
      all_goals simp_all [VadState.reset]

lemma processFramesGo_idle_empty (model : Scorer) :
    ∀ (fuel : ℕ) (s : VadState) (b : List ℕ),
      (s.in_speech = false → s.speech_buffer = []) →
      ((processFramesGo model fuel s b).state.in_speech = false →
        (processFramesGo model fuel s b).state.speech_buffer = []) := by
  intro fuel
  induction fuel with
  | zero =>
    intro s b hP
    exact hP
  | succ fuel ih =>
    intro s b hP
    dsimp only [processFramesGo]
    split
    · split
      · exact processFrame_idle_empty model s _ hP
      · exact ih _ _ (processFrame_idle_empty model s _ hP)
    · exact hP

lemma process_audio_chunk_idle_empty (vad_model_loaded : Bool) (model : Scorer)
    (s : VadState) (chunk : List ℕ)
    (hP : s.in_speech = false → s.speech_buffer = []) :
    (process_audio_chunk vad_model_loaded model s chunk).state.in_speech = false →
    (process_audio_chunk vad_model_loaded model s chunk).state.speech_buffer = [] := by
  unfold process_audio_chunk
  split
  · exact hP
  · exact processFramesGo_idle_empty model _ _ _ hP

/-- C9: in every connection state reachable through any sequence of
`process_audio_chunk` and cleanup operations, whenever the machine is Idle
the speech accumulation buffer is empty — it only becomes non-empty on the
Idle→Speaking transition (which sets `in_speech`), and the reset that
returns the machine to Idle empties it. -/
theorem C9_idle_accum_empty (s : VadState) (hs : ReachableState s) :
    s.in_speech = false → s.speech_buffer = [] := by
  induction hs with
  | init => intro _; rfl
  | step vad_model_loaded model chunk hs ih =>
    exact process_audio_chunk_idle_empty vad_model_loaded model _ chunk ih

/-- C9 witness: the fresh state is reachable and Idle, with empty
accumulation. -/
theorem C9_witness : VadState.reset.speech_buffer = [] :=
  C9_idle_accum_empty VadState.reset ReachableState.init rfl

/-! ### Claim C6 -/

lemma stepIdleNoTrigger (model : Scorer) (s : VadState) (f : List ℕ) (p : ℚ)
    (hf : f.length = FRAME_BYTES)
    (hp : frameSpeechProb model (bytesToInt16 f) = some p)
    (hin : s.in_speech = false)
    (htrig : ¬ ( SPEECH_TRIGGER_RATIO ≤ mkRat
        (((dequeAppend SPEECH_BUFFER_FRAMES s.vad_decision_buffer
            (isSpeechDecision p)).count true : ℕ) : ℤ)
        (dequeAppend SPEECH_BUFFER_FRAMES s.vad_decision_buffer
            (isSpeechDecision p)).length ∧
      3 * (dequeAppend SPEECH_BUFFER_FRAMES s.vad_decision_buffer
            (isSpeechDecision p)).length / 5 ≤
        (dequeAppend SPEECH_BUFFER_FRAMES s.vad_decision_buffer
            (isSpeechDecision p)).count true)) :
    processFrame model s f =
      ⟨{ s with
          vad_decision_buffer :=
            dequeAppend SPEECH_BUFFER_FRAMES s.vad_decision_buffer (isSpeechDecision p)
          pre_speech_buffer := dequeAppend PRE_SPEECH_FRAMES s.pre_speech_buffer f },
       [], false⟩ := by
  unfold processFrame
  rw [if_neg (by simp [hf])]
  dsimp only
  rw [hp]
  dsimp only
  have hn0 : ¬ ((dequeAppend SPEECH_BUFFER_FRAMES s.vad_decision_buffer
      (isSpeechDecision p)).length = 0) := by
    have := dequeAppend_length_pos SPEECH_BUFFER_FRAMES s.vad_decision_buffer
      (isSpeechDecision p) (by decide)
    omega
  rw [if_neg hn0, if_pos hin, if_neg htrig]

/-- A frame whose RMS lies below the noise gate, processed in an Idle state
with an all-false decision window, keeps everything silent. -/
lemma processFrame_silent (model : Scorer) (s : VadState) (f : List ℕ)
    (hin : s.in_speech = false)
    (hcount : s.vad_decision_buffer.count true = 0)
    (hgate : f.length = FRAME_BYTES → rmsBelowGate (bytesToInt16 f)) :
    (processFrame model s f).errored = false ∧
    (processFrame model s f).outputs = [] ∧
    (processFrame model s f).state.in_speech = false ∧
    (processFrame model s f).state.vad_decision_buffer.count true = 0 := by
  by_cases hlen : f.length = FRAME_BYTES
  · have hp : frameSpeechProb model (bytesToInt16 f) = some 0 := by
      unfold frameSpeechProb
      rw [if_pos (hgate hlen)]
    have hdec : isSpeechDecision 0 = false := by decide
    have hcount' : (dequeAppend SPEECH_BUFFER_FRAMES s.vad_decision_buffer
        (isSpeechDecision 0)).count true = 0 := by
      rw [hdec]
      exact dequeAppend_count_true_zero _ _ hcount
    have hn : 0 < (dequeAppend SPEECH_BUFFER_FRAMES s.vad_decision_buffer
        (isSpeechDecision 0)).length :=
      dequeAppend_length_pos _ _ _ (by decide)
    have htrig : ¬ ( SPEECH_TRIGGER_RATIO ≤ mkRat
        (((dequeAppend SPEECH_BUFFER_FRAMES s.vad_decision_buffer
            (isSpeechDecision 0)).count true : ℕ) : ℤ)
        (dequeAppend SPEECH_BUFFER_FRAMES s.vad_decision_buffer
            (isSpeechDecision 0)).length ∧
      3 * (dequeAppend SPEECH_BUFFER_FRAMES s.vad_decision_buffer
            (isSpeechDecision 0)).length / 5 ≤
        (dequeAppend SPEECH_BUFFER_FRAMES s.vad_decision_buffer
            (isSpeechDecision 0)).count true) := by
      rintro ⟨h9, _⟩
      rw [hcount', trigger_le_ratio_iff _ _ hn] at h9
      omega
    rw [stepIdleNoTrigger model s f 0 hlen hp hin htrig]
    exact ⟨rfl, rfl, hin, hcount'⟩
  · have : processFrame model s f = ⟨s, [], false⟩ := by
      unfold processFrame
      rw [if_pos hlen]
    rw [this]
    exact ⟨rfl, rfl, hin, hcount⟩

lemma processFrames_frames_head (model : Scorer) (s : VadState) (b : List ℕ)
    (hb : FRAME_BYTES ≤ b.length) :
    b.take FRAME_BYTES ∈ (processFrames model s b).frames := by
  rw [processFrames_step model s b hb]
  dsimp only
  split
  · exact List.mem_singleton_self _
  · exact List.mem_cons_self _ _

lemma processFrames_silent (model : Scorer) :
    ∀ (n : ℕ) (b : List ℕ), b.length = n → ∀ s : VadState,
      s.in_speech = false → s.vad_decision_buffer.count true = 0 →
      (∀ f ∈ (processFrames model s b).frames, rmsBelowGate (bytesToInt16 f)) →
      (processFrames model s b).outputs = [] ∧
      (processFrames model s b).state.in_speech = false ∧
      (processFrames model s b).state.vad_decision_buffer.count true = 0 := by
  intro n
  induction n using Nat.strong_induction_on with
  | _ n ih =>
    intro b hn s hin hcount htrace
    by_cases hb : FRAME_BYTES ≤ b.length
    · have htake : rmsBelowGate (bytesToInt16 (b.take FRAME_BYTES)) :=
        htrace _ (processFrames_frames_head model s b hb)
      have hframe := processFrame_silent model s (b.take FRAME_BYTES) hin hcount
        (fun _ => htake)
      rw [processFrames_step model s b hb] at htrace ⊢
      dsimp only at htrace ⊢
      rw [if_neg (by simp [hframe.1])] at htrace ⊢
      dsimp only at htrace ⊢
      have hFB : 0 < FRAME_BYTES := by decide
      have hrest := ih (b.length - FRAME_BYTES) (by omega) (b.drop FRAME_BYTES)
        (by simp) _ hframe.2.2.1 hframe.2.2.2
        (fun f hf => htrace f (List.mem_cons_of_mem _ hf))
      refine ⟨?_, hrest.2.1, hrest.2.2⟩
      rw [hframe.2.1, hrest.1]
      rfl
    · rw [processFrames_small model s b (by omega)]
      exact ⟨rfl, hin, hcount⟩

lemma process_audio_chunk_silent (model : Scorer) (s : VadState) (c : List ℕ)
    (hin : s.in_speech = false)
    (hcount : s.vad_decision_buffer.count true = 0)
    (htrace : ∀ f ∈ (process_audio_chunk true model s c).frames,
        rmsBelowGate (bytesToInt16 f)) :
    (process_audio_chunk true model s c).outputs = [] ∧
    (process_audio_chunk true model s c).state.in_speech = false ∧
    (process_audio_chunk true model s c).state.vad_decision_buffer.count true = 0 := by
  unfold process_audio_chunk at htrace ⊢
  rw [if_neg (by simp)] at htrace ⊢
  exact processFrames_silent model _ _ rfl _ hin hcount htrace

lemma processChunks_silent (model : Scorer) :
    ∀ (chunks : List (List ℕ)) (s : VadState),
      s.in_speech = false → s.vad_decision_buffer.count true = 0 →
      (∀ f ∈ (processChunks true model s chunks).frames,
          rmsBelowGate (bytesToInt16 f)) →
      (processChunks true model s chunks).outputs = [] ∧
      (processChunks true model s chunks).state.in_speech = false ∧
      (processChunks true model s chunks).state.vad_decision_buffer.count true = 0 := by
  intro chunks
  induction chunks with
  | nil =>
    intro s hin hcount _
    exact ⟨rfl, hin, hcount⟩
  | cons c cs ihc =>
    intro s hin hcount htrace
    simp only [processChunks] at htrace ⊢
    have hchunk := process_audio_chunk_silent model s c hin hcount
      (fun f hf => htrace f (List.mem_append.mpr (Or.inl hf)))
    have hrest := ihc _ hchunk.2.1 hchunk.2.2
      (fun f hf => htrace f (List.mem_append.mpr (Or.inr hf)))
    refine ⟨?_, hrest.2.1, hrest.2.2⟩
    rw [hchunk.1, hrest.1]
    rfl

/-- C6: with the scoring capability present, for every input stream to a
fresh connection in which every complete carved frame's normalized RMS is
below `RMS_NOISE_GATE` (expressed on the mean square: `rms < g ↔ rms² < g²`),
no utterance is ever produced — the sink is never invoked and the state never
leaves Idle, at every prefix of the stream, regardless of its length. -/
theorem C6_silence_never_emits (model : Scorer) (chunks : List (List ℕ))
    (h : ∀ f ∈ (processChunks true model VadState.reset chunks).frames,
        rmsBelowGate (bytesToInt16 f)) :
    ∀ k : ℕ,
      (processChunks true model VadState.reset (chunks.take k)).outputs = [] ∧
      (processChunks true model VadState.reset (chunks.take k)).state.in_speech
        = false := by
  intro k
  have hsplit := processChunks_append true model VadState.reset (chunks.take k)
    (chunks.drop k)
  rw [List.take_append_drop] at hsplit
  have htr : ∀ f ∈ (processChunks true model VadState.reset (chunks.take k)).frames,
      rmsBelowGate (bytesToInt16 f) := by
    intro f hf
    apply h
    rw [hsplit]
    dsimp only
    exact List.mem_append.mpr (Or.inl hf)
  have hres := processChunks_silent model (chunks.take k) VadState.reset rfl rfl htr
  exact ⟨hres.1, hres.2.1⟩

/-- C6 witness: a short sub-frame chunk (no complete frame is ever carved, so
the hypothesis holds vacuously); nothing is emitted and the state stays
Idle. -/
theorem C6_witness :
    (processChunks true scenarioModel VadState.reset ([[0]].take 1)).outputs = [] ∧
    (processChunks true scenarioModel VadState.reset ([[0]].take 1)).state.in_speech
      = false :=
  C6_silence_never_emits scenarioModel [[0]] (by decide) 1

/-! ### Claim C3 -/

lemma processFrames_noerror (model : Scorer) (hm : ∀ xs, model xs ≠ none) :
    ∀ (n : ℕ) (b : List ℕ), b.length = n → ∀ s : VadState,
      (processFrames model s b).errored = false := by
  intro n
  induction n using Nat.strong_induction_on with
  | _ n ih =>
    intro b hn s
    by_cases hb : FRAME_BYTES ≤ b.length
    · rw [processFrames_step model s b hb]
      dsimp only
      rw [if_neg (by simp [processFrame_noerror model hm])]
      have hFB : 0 < FRAME_BYTES := by decide
      exact ih (b.length - FRAME_BYTES) (by omega) (b.drop FRAME_BYTES) (by simp) _
    · rw [processFrames_small model s b (by omega)]

lemma processFrames_partial_short (model : Scorer) :
    ∀ (n : ℕ) (b : List ℕ), b.length = n → ∀ s : VadState,
      s.partial_frame = [] →
      (processFrames model s b).state.partial_frame.length < FRAME_BYTES := by
  intro n
  induction n using Nat.strong_induction_on with
  | _ n ih =>
    intro b hn s hs
    by_cases hb : FRAME_BYTES ≤ b.length
    · rw [processFrames_step model s b hb]
      dsimp only
      split
      · rw [processFrame_partial_nil model s _ hs]
        decide
      · have hFB : 0 < FRAME_BYTES := by decide
        exact ih (b.length - FRAME_BYTES) (by omega) (b.drop FRAME_BYTES) (by simp) _
          (processFrame_partial_nil model s _ hs)
    · rw [processFrames_small model s b (by omega)]
      dsimp only
      rw [hs]
      simpa using by omega

lemma processFrames_glue (model : Scorer) (hm : ∀ xs, model xs ≠ none) :
    ∀ (n : ℕ) (a : List ℕ), a.length = n → ∀ (s : VadState) (b : List ℕ),
      s.partial_frame = [] →
      processFrames model s (a ++ b) =
        ⟨(processFrames model
            { (processFrames model s a).state with partial_frame := [] }
            ((processFrames model s a).state.partial_frame ++ b)).state,
         (processFrames model s a).frames ++
           (processFrames model
             { (processFrames model s a).state with partial_frame := [] }
             ((processFrames model s a).state.partial_frame ++ b)).frames,
         (processFrames model s a).outputs ++
           (processFrames model
             { (processFrames model s a).state with partial_frame := [] }
             ((processFrames model s a).state.partial_frame ++ b)).outputs,
         (processFrames model
           { (processFrames model s a).state with partial_frame := [] }
           ((processFrames model s a).state.partial_frame ++ b)).errored⟩ := by
  intro n
  induction n using Nat.strong_induction_on with
  | _ n ih =>
    intro a hn s b hs
    by_cases ha : FRAME_BYTES ≤ a.length
    · have hab : FRAME_BYTES ≤ (a ++ b).length := by
        rw [List.length_append]
        omega
      have htake : (a ++ b).take FRAME_BYTES = a.take FRAME_BYTES :=
        List.take_append_of_le_length ha
      have hdrop : (a ++ b).drop FRAME_BYTES = a.drop FRAME_BYTES ++ b :=
        List.drop_append_of_le_length ha
      have herr : (processFrame model s (a.take FRAME_BYTES)).errored = false :=
        processFrame_noerror model hm s _
      have hpnil : (processFrame model s (a.take FRAME_BYTES)).state.partial_frame
          = [] := processFrame_partial_nil model s _ hs
      have hFB : 0 < FRAME_BYTES := by decide
      rw [processFrames_step model s (a ++ b) hab, processFrames_step model s a ha]
      dsimp only
      rw [htake, hdrop, if_neg (by simp [herr]), if_neg (by simp [herr])]
      dsimp only
      rw [ih (a.length - FRAME_BYTES) (by omega) (a.drop FRAME_BYTES) (by simp) _ b
        hpnil]
      simp [List.append_assoc]
    · rw [processFrames_small model s a (by omega)]
      dsimp only
      rw [hs, List.nil_append]
      have hsa : ({ s with partial_frame := [] } : VadState)
          = { s with partial_frame := a } → True := fun _ => trivial
      have hback : ({ { s with partial_frame := a } with partial_frame := [] }
          : VadState) = s := by
        cases s
        simp_all
      rw [hback]
      simp

lemma process_audio_chunk_true (model : Scorer) (s : VadState) (x : List ℕ) :
    process_audio_chunk true model s x =
      processFrames model { s with partial_frame := [] }
        (s.partial_frame ++ x) := by
  unfold process_audio_chunk
  rw [if_neg (by simp)]

lemma processFrames_bytes (model : Scorer) (hm : ∀ xs, model xs ≠ none) :
    ∀ (n : ℕ) (b : List ℕ), b.length = n → ∀ s : VadState, s.partial_frame = [] →
      (processFrames model s b).frames.flatten ++
        (processFrames model s b).state.partial_frame = b := by
  intro n
  induction n using Nat.strong_induction_on with
  | _ n ih =>
    intro b hn s hs
    by_cases hb : FRAME_BYTES ≤ b.length
    · have herr : (processFrame model s (b.take FRAME_BYTES)).errored = false :=
        processFrame_noerror model hm s _
      have hFB : 0 < FRAME_BYTES := by decide
      rw [processFrames_step model s b hb]
      dsimp only
      rw [if_neg (by simp [herr])]
      dsimp only
      rw [List.flatten_cons, List.append_assoc,
        ih (b.length - FRAME_BYTES) (by omega) (b.drop FRAME_BYTES) (by simp) _
          (processFrame_partial_nil model s _ hs)]
      exact List.take_append_drop _ _
    · rw [processFrames_small model s b (by omega)]
      dsimp only
      rw [hs]
      simp

/-- C3: split determinism. With a scorer that never raises, feeding any
partition of a byte sequence across successive `process_audio_chunk` calls
gives the identical result — same carved frame sequence, same final
remainder, same state, same outputs — as feeding the whole sequence in a
single call; and no bytes are dropped or reordered: the carved frames
re-concatenate with the final remainder to exactly the bytes fed in. (The
remainder-shorter-than-a-frame hypothesis is the documented ConnectionState
invariant; a never-raising scorer is the claim's implicit operating mode —
with an exception mid-chunk the source drops the unconsumed tail, see C2.) -/
theorem C3_split_determinism (model : Scorer) (hm : ∀ xs, model xs ≠ none)
    (s : VadState) (chunks : List (List ℕ))
    (hpart : s.partial_frame.length < FRAME_BYTES) :
    processChunks true model s chunks =
      process_audio_chunk true model s chunks.flatten ∧
    (processChunks true model s chunks).frames.flatten ++
        (processChunks true model s chunks).state.partial_frame =
      s.partial_frame ++ chunks.flatten := by
  have h1 : ∀ (t : VadState), t.partial_frame.length < FRAME_BYTES →
      processChunks true model t chunks =
        process_audio_chunk true model t chunks.flatten := by
    induction chunks with
    | nil =>
      intro t ht
      simp only [processChunks, List.flatten_nil, process_audio_chunk_true,
        List.append_nil]
      rw [processFrames_small model _ _ (by simpa using ht)]
      cases t
      simp
    | cons c cs ih =>
      intro t ht
      have hbound : (process_audio_chunk true model t c).state.partial_frame.length
          < FRAME_BYTES := by
        rw [process_audio_chunk_true]
        exact processFrames_partial_short model _ _ rfl _ rfl
      simp only [processChunks, List.flatten_cons]
      rw [ih _ hbound]
      simp only [process_audio_chunk_true]
      rw [← List.append_assoc,
        processFrames_glue model hm _ (t.partial_frame ++ c) rfl _ cs.flatten rfl]
      have herr : (processFrames model { t with partial_frame := [] }
          (t.partial_frame ++ c)).errored = false :=
        processFrames_noerror model hm _ _ rfl _
      rw [herr]
      simp
  refine ⟨h1 s hpart, ?_⟩
  rw [h1 s hpart, process_audio_chunk_true]
  exact processFrames_bytes model hm _ _ rfl _ rfl

/-- C3 witness: a concrete total scorer, a fresh state, and a two-chunk
partition. -/
theorem C3_witness :
    (processChunks true scenarioModel VadState.reset [[0], [1]] =
      process_audio_chunk true scenarioModel VadState.reset [[0], [1]].flatten) ∧
    (processChunks true scenarioModel VadState.reset [[0], [1]]).frames.flatten ++
        (processChunks true scenarioModel VadState.reset
            [[0], [1]]).state.partial_frame =
      VadState.reset.partial_frame ++ [[0], [1]].flatten :=
  C3_split_determinism scenarioModel
    (fun xs => by unfold scenarioModel; split <;> simp)
    VadState.reset [[0], [1]] (by decide)

end EchoText
